import Mathlib

set_option linter.unusedVariables false

/-!
# Verification of the SSH device adapter (`device_test_core/ssh/device.py`)

A shallow embedding of the adapter's command construction, channel
protocol, file-transfer logic and error paths, together with theorems
settling the specification's claims about them.  Python strings and byte
strings are modelled as `List Char` (every operation involved — token
joining, quoting, CRLF replacement, path manipulation — acts the same way
on characters as on bytes for the inputs in question).
-/

namespace SSHDevice

/-! ## Python `shlex` quoting (`shlex.join`, used at `device.py` line 170)

`shlex.quote` leaves a non-empty string consisting only of safe
characters unchanged and otherwise wraps the string in single quotes,
rewriting every embedded single quote as the five-character sequence
close-quote, double-quoted quote, reopen-quote.  `shlex.join` quotes each
token and joins the results with single spaces. -/

/-- The characters Python's `shlex.quote` considers safe: the ASCII word
characters together with `@ % + = : , . / -` (written spaced out here). -/
def safeChar (c : Char) : Bool :=
  c.isAlphanum || ['_', '@', '%', '+', '=', ':', ',', '.', '/', '-'].contains c

/-- The replacement `s.replace(quote, escaped)` performed inside
`shlex.quote`: each single quote becomes quote, double quote, quote,
double quote, quote. -/
def escapeQuotes : List Char → List Char
  | [] => []
  | c :: rest =>
    if c = '\'' then '\'' :: '"' :: '\'' :: '"' :: '\'' :: escapeQuotes rest
    else c :: escapeQuotes rest

/-- Python's `shlex.quote`. -/
def shlexQuote (s : List Char) : List Char :=
  if s = [] then ['\'', '\'']
  else if s.all safeChar then s
  else '\'' :: (escapeQuotes s ++ ['\''])

/-- Python's `shlex.join`: quote every token and join with single
spaces. -/
def shlexJoin : List (List Char) → List Char
  | [] => []
  | [t] => shlexQuote t
  | t :: u :: rest => shlexQuote t ++ ' ' :: shlexJoin (u :: rest)

/-! ## A POSIX shell field splitter

Used to state that tokens joined by `shlexJoin` survive the round trip
through a shell verbatim.  `splitW` is the outside-quotes state (`acc` is
the word accumulated so far, `none` while no word has started), `splitS`
and `splitD` are the inside-single-quote and inside-double-quote
states. -/

mutual

def splitW : List Char → Option (List Char) → List (List Char)
  | [], none => []
  | [], some w => [w]
  | c :: rest, acc =>
    if c = ' ' ∨ c = '\t' ∨ c = '\n' then
      match acc with
      | none => splitW rest none
      | some w => w :: splitW rest none
    else if c = '\'' then splitS rest (acc.getD [])
    else if c = '"' then splitD rest (acc.getD [])
    else splitW rest (some (acc.getD [] ++ [c]))

def splitS : List Char → List Char → List (List Char)
  | [], w => [w]
  | c :: rest, w => if c = '\'' then splitW rest (some w) else splitS rest (w ++ [c])

def splitD : List Char → List Char → List (List Char)
  | [], w => [w]
  | c :: rest, w => if c = '"' then splitW rest (some w) else splitD rest (w ++ [c])

end

/-- A safe character is not a separator and not a quote character. -/
theorem safeChar_spec {c : Char} (h : safeChar c = true) :
    c ≠ ' ' ∧ c ≠ '\t' ∧ c ≠ '\n' ∧ c ≠ '\'' ∧ c ≠ '"' := by
  refine ⟨?_, ?_, ?_, ?_, ?_⟩ <;> rintro rfl <;> exact absurd h (by decide)

theorem splitW_cons_safe {c : Char} (h : safeChar c = true)
    (rest : List Char) (acc : Option (List Char)) :
    splitW (c :: rest) acc = splitW rest (some (acc.getD [] ++ [c])) := by
  obtain ⟨h1, h2, h3, h4, h5⟩ := safeChar_spec h
  rw [splitW.eq_def]
  dsimp only
  rw [if_neg (by simp [h1, h2, h3]), if_neg h4, if_neg h5]

theorem splitW_cons_space (rest : List Char) (w : List Char) :
    splitW (' ' :: rest) (some w) = w :: splitW rest none := by
  rw [splitW.eq_def]
  dsimp only
  rw [if_pos (Or.inl rfl)]

theorem splitW_cons_squote (rest : List Char) (acc : Option (List Char)) :
    splitW ('\'' :: rest) acc = splitS rest (acc.getD []) := by
  rw [splitW.eq_def]
  dsimp only
  rw [if_neg (by decide), if_pos rfl]

theorem splitW_cons_dquote (rest : List Char) (acc : Option (List Char)) :
    splitW ('"' :: rest) acc = splitD rest (acc.getD []) := by
  rw [splitW.eq_def]
  dsimp only
  rw [if_neg (by decide), if_neg (by decide), if_pos rfl]

theorem splitS_cons_quote (rest : List Char) (w : List Char) :
    splitS ('\'' :: rest) w = splitW rest (some w) := by
  rw [splitS.eq_def]
  dsimp only
  rw [if_pos rfl]

theorem splitS_cons_other {c : Char} (hc : c ≠ '\'') (rest : List Char) (w : List Char) :
    splitS (c :: rest) w = splitS rest (w ++ [c]) := by
  rw [splitS.eq_def]
  dsimp only
  rw [if_neg hc]

theorem splitD_cons_quote (rest : List Char) (w : List Char) :
    splitD ('"' :: rest) w = splitW rest (some w) := by
  rw [splitD.eq_def]
  dsimp only
  rw [if_pos rfl]

theorem splitD_cons_other {c : Char} (hc : c ≠ '"') (rest : List Char) (w : List Char) :
    splitD (c :: rest) w = splitD rest (w ++ [c]) := by
  rw [splitD.eq_def]
  dsimp only
  rw [if_neg hc]

/-- Consuming a run of safe characters accumulates them onto the current
word. -/
theorem splitW_safe_run (t : List Char) (ht : t.all safeChar = true) :
    ∀ (rest w : List Char), splitW (t ++ rest) (some w) = splitW rest (some (w ++ t)) := by
  induction t with
  | nil => intro rest w; simp
  | cons c t ih =>
    intro rest w
    simp only [List.all_cons, Bool.and_eq_true] at ht
    rw [List.cons_append, splitW_cons_safe ht.1, Option.getD_some, ih ht.2 rest (w ++ [c])]
    simp

/-- Consuming the quote-escaped body of a token inside single quotes, up
to the closing quote, appends the original token to the current word. -/
theorem splitS_escape (t : List Char) :
    ∀ (rest w : List Char),
      splitS (escapeQuotes t ++ '\'' :: rest) w = splitW rest (some (w ++ t)) := by
  induction t with
  | nil =>
    intro rest w
    rw [escapeQuotes, List.nil_append, splitS_cons_quote]
    simp
  | cons c t ih =>
    intro rest w
    by_cases hc : c = '\''
    · subst hc
      rw [escapeQuotes, if_pos rfl]
      rw [List.cons_append, splitS_cons_quote]
      rw [List.cons_append, splitW_cons_dquote, Option.getD_some]
      rw [List.cons_append, splitD_cons_other (by decide)]
      rw [List.cons_append, splitD_cons_quote]
      rw [List.cons_append, splitW_cons_squote, Option.getD_some]
      rw [ih rest (w ++ ['\''])]
      simp
    · rw [escapeQuotes, if_neg hc]
      rw [List.cons_append, splitS_cons_other hc, ih rest (w ++ [c])]
      simp

/-- Consuming one quoted token turns it into the current word. -/
theorem splitW_quote (t rest : List Char) :
    splitW (shlexQuote t ++ rest) none = splitW rest (some t) := by
  by_cases h0 : t = []
  · subst h0
    rw [shlexQuote, if_pos rfl]
    rw [List.cons_append, splitW_cons_squote, List.cons_append, splitS_cons_quote]
    rfl
  · by_cases hs : t.all safeChar
    · rw [shlexQuote, if_neg h0, if_pos hs]
      obtain ⟨c, t', rfl⟩ : ∃ c t', t = c :: t' := by
        cases t with
        | nil => exact absurd rfl h0
        | cons c t' => exact ⟨c, t', rfl⟩
      simp only [List.all_cons, Bool.and_eq_true] at hs
      rw [List.cons_append, splitW_cons_safe hs.1, splitW_safe_run t' hs.2]
      rfl
    · rw [shlexQuote, if_neg h0, if_neg hs]
      rw [List.cons_append, splitW_cons_squote]
      rw [List.append_assoc, List.singleton_append, splitS_escape]
      rfl

/-- Round trip: a shell splits a `shlexJoin`-assembled command line back
into exactly the original tokens — embedded whitespace and special
characters survive verbatim. -/
theorem splitW_shlexJoin (ts : List (List Char)) : splitW (shlexJoin ts) none = ts := by
  induction ts with
  | nil => rw [shlexJoin]; rfl
  | cons t ts ih =>
    cases ts with
    | nil =>
      rw [shlexJoin]
      have h := splitW_quote t []
      rw [List.append_nil] at h
      rw [h, splitW]
    | cons u ts2 =>
      rw [shlexJoin, splitW_quote t (' ' :: shlexJoin (u :: ts2)), splitW_cons_space, ih]

/-! ## The adapter state (`SSHDeviceAdapter.__init__`, lines 41-53)

The configuration mapping recognises `hostname`, `username` and
`password`; the environment mapping is a separate, insertion-ordered
key-value list (`self._env = env or \x7b\x7d`). -/

/-- The configuration mapping handed to the adapter (`config`), with the
keys `_connect` reads at lines 121-123. -/
structure SSHConfig where
  hostname : Option (List Char)
  username : Option (List Char)
  password : Option (List Char)

/-- The adapter state captured at construction. -/
structure Adapter where
  name : List Char
  deviceId : Option (List Char)
  env : List (List Char × List Char)
  shouldCleanup : Option Bool
  config : SSHConfig

/-- `SSHDeviceAdapter.__init__` (lines 41-53): stores the constructor
arguments; `self._env = env or \x7b\x7d` replaces an absent environment
mapping by the empty one. -/
def mkAdapter (name : List Char) (deviceId : Option (List Char))
    (env : Option (List (List Char × List Char))) (shouldCleanup : Option Bool)
    (config : SSHConfig) : Adapter :=
  { name := name, deviceId := deviceId, env := env.getD [],
    shouldCleanup := shouldCleanup, config := config }

/-! ## Composite command construction (`execute_command`, lines 145-162) -/

/-- A command as accepted by `execute_command`: a single string or a
list of tokens (lines 159-162). -/
inductive CmdInput where
  | str (s : List Char)
  | list (args : List (List Char))

/-- The payload tokens appended last: each list element a separate token,
a string a single token. -/
def cmdTokens : CmdInput → List (List Char)
  | .str s => [s]
  | .list args => args

/-- `SSHDeviceAdapter.use_sudo` (lines 237-238): the privilege policy of
this adapter is fixed — always `True`. -/
def use_sudo : Bool := true

/-- The `env KEY=VALUE ...` tokens built at lines 151-154; empty when the
environment mapping is empty (Python dict truthiness of `self._env`). -/
def envTokens (env : List (List Char × List Char)) : List (List Char) :=
  if env = [] then []
  else "env".data :: env.map (fun kv => kv.1 ++ '=' :: kv.2)

/-- The `/bin/bash -c` wrapper added at lines 156-157 when `shell` is
set. -/
def shellTokens (shell : Bool) : List (List Char) :=
  if shell then ["/bin/bash".data, "-c".data] else []

/-- The `run_cmd` token list assembled at lines 145-162: sudo tokens,
then env tokens, then the shell wrapper, then the payload. -/
def buildRunCmd (env : List (List Char × List Char)) (shell : Bool) (cmd : CmdInput) :
    List (List Char) :=
  (if use_sudo then ["sudo".data, "-E".data] else []) ++
    envTokens env ++ shellTokens shell ++ cmdTokens cmd

/-! ## The channel protocol (`execute_command`, lines 164-192) -/

/-- Observable interactions with the paramiko transport and channel. -/
inductive ChanEvent where
  | openSession (timeout : Nat)
  | getPty
  | makefile
  | execCommand (line : List Char)
  | readAll
  | recvExitStatus
  | closeFile
deriving DecidableEq

/-- The channel collaborator: the output bytes it will deliver, the exit
status it will report, and the log of the calls made on it. -/
structure Channel where
  output : List Char
  exitStatus : Int
  log : List ChanEvent

/-- `output.replace` of CRLF by LF (line 175): Python `bytes.replace`
scans left to right and replaces each non-overlapping occurrence. -/
def replaceCRLF : List Char → List Char
  | [] => []
  | [c] => [c]
  | c1 :: c2 :: rest =>
    if c1 = '\r' ∧ c2 = '\n' then '\n' :: replaceCRLF rest
    else c1 :: replaceCRLF (c2 :: rest)

/-- `execute_command` (lines 128-192): assemble the composite command,
open a fresh channel with a pseudo-terminal bounded by the `timeout`
keyword argument (default 120), run the command, read the whole output,
normalise CRLF, then ask for the exit status, and close the file.
Returns `(exit_code, output)` together with the channel, whose log
records the interaction order. -/
def executeCommand (a : Adapter) (cmd : CmdInput) (logOutput : Bool) (shell : Bool)
    (timeout : Option Nat) (ch : Channel) : (Int × List Char) × Channel :=
  let runCmd := buildRunCmd a.env shell cmd
  let ch1 := { ch with log := ch.log ++ [ChanEvent.openSession (timeout.getD 120)] }
  let ch2 := { ch1 with log := ch1.log ++ [ChanEvent.getPty] }
  let ch3 := { ch2 with log := ch2.log ++ [ChanEvent.makefile] }
  let ch4 := { ch3 with log := ch3.log ++ [ChanEvent.execCommand (shlexJoin runCmd)] }
  let output := ch4.output
  let ch5 := { ch4 with log := ch4.log ++ [ChanEvent.readAll] }
  let output := replaceCRLF output
  let exit_code := ch5.exitStatus
  let ch6 := { ch5 with log := ch5.log ++ [ChanEvent.recvExitStatus] }
  let ch7 := { ch6 with log := ch6.log ++ [ChanEvent.closeFile] }
  ((exit_code, output), ch7)

/-- `hasPair a b s` holds when the characters `a` and `b` occur adjacently
(in that order) somewhere in `s`. -/
def hasPair (a b : Char) : List Char → Bool
  | [] => false
  | [_] => false
  | x :: y :: rest => (x = a && y = b) || hasPair a b (y :: rest)

theorem hasPair_cons_cons (a b x y : Char) (t : List Char) :
    hasPair a b (x :: y :: t) = ((x = a && y = b) || hasPair a b (y :: t)) := by
  rw [hasPair]

theorem hasPair_tail {a b x : Char} {t : List Char}
    (h : hasPair a b (x :: t) = false) : hasPair a b t = false := by
  cases t with
  | nil => rfl
  | cons y r =>
    rw [hasPair_cons_cons, Bool.or_eq_false_iff] at h
    exact h.2

theorem hasPair_cons_of_ne {a x : Char} (hx : x ≠ a) (b : Char) (t : List Char) :
    hasPair a b (x :: t) = hasPair a b t := by
  cases t with
  | nil => rfl
  | cons y r =>
    rw [hasPair_cons_cons]
    simp [hx]

theorem replaceCRLF_cons_of_ne {c : Char} (hc : c ≠ '\r') (t : List Char) :
    replaceCRLF (c :: t) = c :: replaceCRLF t := by
  cases t with
  | nil => rw [replaceCRLF, replaceCRLF]
  | cons d r => rw [replaceCRLF, if_neg (by rintro ⟨h1, _⟩; exact hc h1)]

/-- After the single-pass CRLF replacement, a CRLF pair can only remain
where the input contained two adjacent carriage returns. -/
theorem replaceCRLF_no_crlf :
    ∀ (n : Nat) (s : List Char), s.length ≤ n → hasPair '\r' '\r' s = false →
      hasPair '\r' '\n' (replaceCRLF s) = false := by
  intro n
  induction n with
  | zero =>
    intro s hlen _
    have hs : s = [] := List.eq_nil_of_length_eq_zero (Nat.le_zero.mp hlen)
    subst hs
    rfl
  | succ n ih =>
    intro s hlen h
    match s with
    | [] => rfl
    | [c] => rw [replaceCRLF]; rfl
    | c1 :: c2 :: rest =>
      simp only [List.length_cons] at hlen
      by_cases hcr : c1 = '\r' ∧ c2 = '\n'
      · obtain ⟨rfl, rfl⟩ := hcr
        rw [replaceCRLF, if_pos ⟨rfl, rfl⟩]
        rw [hasPair_cons_of_ne (by decide)]
        exact ih rest (by omega) (hasPair_tail (hasPair_tail h))
      · by_cases hc1 : c1 = '\r'
        · subst hc1
          have hc2n : c2 ≠ '\n' := fun hn => hcr ⟨rfl, hn⟩
          have hc2r : c2 ≠ '\r' := by
            intro hr
            rw [hasPair_cons_cons] at h
            simp [hr] at h
          rw [replaceCRLF, if_neg hcr, replaceCRLF_cons_of_ne hc2r]
          rw [hasPair_cons_cons]
          have hd : (decide ('\r' = '\r') && decide (c2 = '\n')) = false := by
            simp [hc2n]
          rw [hd, Bool.false_or]
          rw [hasPair_cons_of_ne hc2r]
          exact ih rest (by omega) (hasPair_tail (hasPair_tail h))
        · rw [replaceCRLF, if_neg hcr]
          rw [hasPair_cons_of_ne hc1]
          exact ih (c2 :: rest) (by simp; omega) (hasPair_tail h)

/-! ## The claims about `execute_command` -/

/-- C1: the composite command line of `execute_command` is assembled in
the fixed order sudo prefix (`sudo -E`, always, since `use_sudo` is fixed
to `True`), then the `env KEY=VALUE ...` tokens exactly when the
environment mapping is non-empty, then the `/bin/bash -c` wrapper when
the shell flag is set, then the payload tokens (each list element a
separate token, a string a single token); and the tokens are joined with
shell-safe quoting: a POSIX shell field-splits the joined line back into
exactly the original tokens, so embedded whitespace and special
characters survive verbatim. -/
theorem composite_command_order_and_quoting
    (env : List (List Char × List Char)) (shell : Bool) (cmd : CmdInput) :
    buildRunCmd env shell cmd =
      "sudo".data :: "-E".data :: (envTokens env ++ shellTokens shell ++ cmdTokens cmd) ∧
    splitW (shlexJoin (buildRunCmd env shell cmd)) none = buildRunCmd env shell cmd :=
  ⟨rfl, splitW_shlexJoin _⟩

/-- C2: in every invocation of `execute_command`, for every command and
every flag combination, the channel log contains the exit-status request
strictly after the completed read of the output file: the interactions
appended to the log are some events containing no exit-status request,
then the read, then immediately the exit-status request, then events
containing no further read. -/
theorem exit_status_requested_after_full_read (a : Adapter) (cmd : CmdInput)
    (lo shell : Bool) (timeout : Option Nat) (ch : Channel) :
    ∃ before after,
      (executeCommand a cmd lo shell timeout ch).2.log =
        ch.log ++ (before ++ ChanEvent.readAll :: ChanEvent.recvExitStatus :: after) ∧
      ChanEvent.recvExitStatus ∉ before ∧ ChanEvent.readAll ∉ after := by
  refine ⟨[ChanEvent.openSession (timeout.getD 120), ChanEvent.getPty, ChanEvent.makefile,
    ChanEvent.execCommand (shlexJoin (buildRunCmd a.env shell cmd))],
    [ChanEvent.closeFile], ?_, ?_, ?_⟩
  · simp [executeCommand]
  · simp
  · simp

/-- C5 counterexample: with raw channel output CR CR LF LF, the output
returned by `execute_command` is CR LF LF, which still contains a CRLF
pair — the claim that the returned output never contains CRLF is false. -/
theorem crlf_counterexample :
    hasPair '\r' '\n'
      (executeCommand (mkAdapter [] none none none ⟨none, none, none⟩)
        (.str "true".data) true true none
        { output := ['\r', '\r', '\n', '\n'], exitStatus := 0, log := [] }).1.2 = true := by
  decide

/-- C5 amended: `execute_command` replaces CRLF pairs by LF in a single
left-to-right pass over the raw output; whenever the raw output contains
no two adjacent carriage returns, the returned output contains no CRLF
pair. -/
theorem execute_command_crlf_normalized (a : Adapter) (cmd : CmdInput)
    (lo shell : Bool) (timeout : Option Nat) (ch : Channel)
    (h : hasPair '\r' '\r' ch.output = false) :
    hasPair '\r' '\n' ((executeCommand a cmd lo shell timeout ch).1.2) = false := by
  have hout : (executeCommand a cmd lo shell timeout ch).1.2 = replaceCRLF ch.output := rfl
  rw [hout]
  exact replaceCRLF_no_crlf ch.output.length ch.output le_rfl h

theorem execute_command_crlf_normalized_witness :
    hasPair '\r' '\n'
      ((executeCommand (mkAdapter [] none none none ⟨none, none, none⟩)
        (.str "ls".data) true true none
        { output := ['a', '\r', '\n', 'b'], exitStatus := 0, log := [] }).1.2) = false :=
  execute_command_crlf_normalized _ _ _ _ _ _ (by decide)

/-- C9: the environment mapping used for the `env KEY=VALUE ...` tokens
is fixed at adapter construction: the adapter built by `__init__` stores
exactly the constructor's mapping (`env or` the empty mapping), and for
every per-call argument combination (`cmd`, `log_output`, `shell`,
`timeout`) the command actually executed on the channel carries the env
tokens of that stored mapping — no per-call argument can add, remove
or override an environment variable. -/
theorem env_fixed_at_construction (name : List Char) (deviceId : Option (List Char))
    (env : Option (List (List Char × List Char))) (sc : Option Bool) (cfg : SSHConfig)
    (cmd : CmdInput) (lo shell : Bool) (timeout : Option Nat) (ch : Channel) :
    (mkAdapter name deviceId env sc cfg).env = env.getD [] ∧
    ∃ pre post,
      (executeCommand (mkAdapter name deviceId env sc cfg) cmd lo shell timeout ch).2.log =
        ch.log ++ pre ++
          ChanEvent.execCommand
            (shlexJoin (["sudo".data, "-E".data] ++ envTokens (env.getD []) ++
              shellTokens shell ++ cmdTokens cmd)) :: post := by
  refine ⟨rfl, [ChanEvent.openSession (timeout.getD 120), ChanEvent.getPty, ChanEvent.makefile],
    [ChanEvent.readAll, ChanEvent.recvExitStatus, ChanEvent.closeFile], ?_⟩
  simp [executeCommand, buildRunCmd, use_sudo, mkAdapter]

/-! ## The file-transfer engine (`copy_to`, lines 240-275) -/

/-- Python `dst.endswith(sep)` for the single separator `/`. -/
def endsWithSlash (s : List Char) : Bool :=
  match s.reverse with
  | [] => false
  | c :: _ => c == '/'

/-- Python `dst.rstrip(sep)` for the single separator `/`: remove every
trailing slash. -/
def rstripSlash (s : List Char) : List Char :=
  (s.reverse.dropWhile (fun c => c == '/')).reverse

/-- `os.path.dirname` on POSIX paths: everything up to the final slash,
with trailing slashes stripped unless the head consists only of
slashes. -/
def dirname (p : List Char) : List Char :=
  let head := (p.reverse.dropWhile (fun c => !(c == '/'))).reverse
  if head.all (fun c => c == '/') then head else rstripSlash head

/-- `Path(archive_path).name`: the final path component. -/
def basename (p : List Char) : List Char :=
  (p.reverse.takeWhile (fun c => !(c == '/'))).reverse

/-- The `parent_dir` computation of `copy_to` (lines 258-261). -/
def parentDir (total_files : Nat) (dst : List Char) : List Char :=
  if total_files > 1 ∨ endsWithSlash dst = true ∨ dst = ".".data ∨ dst = "..".data then
    rstripSlash dst ++ ['/']
  else dirname dst

/-- Modelled from the spec: `assert_command` is inherited from the
`DeviceAdapter` base class, whose source is not part of this repository;
per the specification's error-handling design, this assertive call path
escalates a non-zero exit code to a raised `CommandFailure` carrying the
command text and is a no-op on exit code zero. -/
def assertCommand (exit : Int) (cmd : List Char) : Except (List Char × Int) Unit :=
  if exit ≠ 0 then .error (cmd, exit) else .ok ()

/-- How a `copy_to` call can fail. -/
inductive CopyError where
  | archiveFailed
  | scpFailed
  | commandFailed (cmd : List Char) (exit : Int)

/-- Outcomes of the external collaborators of one `copy_to` call:
`make_tarfile` (raising, or returning the number of files archived), the
temporary path chosen by `NamedTemporaryFile`, the SCP transfer, and the
exit codes of the two remote commands. -/
structure CopyOracle where
  tarResult : Option Nat
  archivePath : List Char
  scpOk : Bool
  mkdirExit : Int
  extractExit : Int

/-- The local filesystem as `copy_to` observes it: the set of existing
paths (`os.path.exists` is membership, `os.unlink` removal). -/
structure CopyState where
  localFiles : List (List Char)

/-- The `mkdir -p` command issued at line 268. -/
def mkdirCmd (parent : List Char) : List Char :=
  "mkdir -p '".data ++ parent ++ "'".data

/-- The extract-and-delete composite command issued at lines 269-271. -/
def extractCmd (tmpDst parent : List Char) : List Char :=
  "tar xf '".data ++ tmpDst ++ "' -C '".data ++ parent ++ "' && rm -f '".data ++ tmpDst ++ "'".data

/-- The `finally` block of `copy_to` (lines 273-275): unlink the archive
if the `archive_path` variable is non-empty and the file exists. -/
def finallyCleanup (archive_path : List Char) (r : Except CopyError Unit) (st : CopyState) :
    Except CopyError Unit × CopyState :=
  if archive_path ≠ [] ∧ archive_path ∈ st.localFiles then
    (r, { st with localFiles := st.localFiles.filter (fun p => !(p == archive_path)) })
  else (r, st)

/-- `copy_to` (lines 240-275): create the named temporary file, build the
archive (initially `archive_path` is the empty string, and it is only
assigned after `make_tarfile` returns, so an archive-build failure leaves
the `finally` guard false), compute the destination parent, transfer the
archive, run `mkdir -p` and the extract-and-delete command through the
assertive command path, and run the `finally` cleanup on every exit
path. -/
def copyTo (o : CopyOracle) (st : CopyState) (src dst : List Char) :
    Except CopyError Unit × CopyState :=
  let st1 : CopyState := { st with localFiles := o.archivePath :: st.localFiles }
  match o.tarResult with
  | none => (.error .archiveFailed, st1)
  | some total_files =>
    let parent_dir := parentDir total_files dst
    let tmp_dst := "/tmp/".data ++ basename o.archivePath
    let outcome : Except CopyError Unit :=
      if o.scpOk = false then .error .scpFailed
      else
        match assertCommand o.mkdirExit (mkdirCmd parent_dir) with
        | .error (c, e) => .error (.commandFailed c e)
        | .ok _ =>
          match assertCommand o.extractExit (extractCmd tmp_dst parent_dir) with
          | .error (c, e) => .error (.commandFailed c e)
          | .ok _ => .ok ()
    finallyCleanup o.archivePath outcome st1

theorem finallyCleanup_removes (r : Except CopyError Unit) {archive_path : List Char}
    (hpath : archive_path ≠ []) (st : CopyState) :
    archive_path ∉ (finallyCleanup archive_path r st).2.localFiles := by
  rw [finallyCleanup]
  split
  · simp [List.mem_filter]
  · rename_i hcond
    exact fun hmem => hcond ⟨hpath, hmem⟩

/-- C3 counterexample: when the archive build (`make_tarfile`) raises,
the temporary file just created by `NamedTemporaryFile` survives the
call — `archive_path` is still the empty string, so the `finally` block
skips the unlink. -/
theorem copy_to_cleanup_counterexample :
    "/tmp/tmpabc123.tar".data ∈
      (copyTo
        { tarResult := none, archivePath := "/tmp/tmpabc123.tar".data, scpOk := true,
          mkdirExit := 0, extractExit := 0 }
        { localFiles := [] } "/host/file".data "/opt/app".data).2.localFiles := by
  decide

/-- C3 amended: whenever the archive build succeeds (`make_tarfile`
returns), the local temporary archive no longer exists after `copy_to`
returns or raises — on success, on transfer failure and on
remote-command failure alike; only a failure of the archive-build step
itself leaves the temporary file behind. -/
theorem copy_to_always_removes_archive (o : CopyOracle) (st : CopyState) (src dst : List Char)
    (hbuild : o.tarResult ≠ none) (hpath : o.archivePath ≠ []) :
    o.archivePath ∉ (copyTo o st src dst).2.localFiles := by
  rcases ho : o.tarResult with _ | n
  · exact absurd ho hbuild
  · rw [copyTo, ho]
    exact finallyCleanup_removes _ hpath _

theorem copy_to_always_removes_archive_witness :
    "/tmp/tmpabc123.tar".data ∉
      (copyTo
        { tarResult := some 2, archivePath := "/tmp/tmpabc123.tar".data, scpOk := true,
          mkdirExit := 0, extractExit := 0 }
        { localFiles := [] } "/host/file".data "/opt/app".data).2.localFiles :=
  copy_to_always_removes_archive _ _ _ _ (by decide) (by decide)

theorem rstripSlash_not_ends (s : List Char) : endsWithSlash (rstripSlash s) = false := by
  rw [endsWithSlash.eq_def]
  rw [show (rstripSlash s).reverse = s.reverse.dropWhile (fun c => c == '/') from by
    rw [rstripSlash, List.reverse_reverse]]
  generalize s.reverse = l
  induction l with
  | nil => rfl
  | cons c t ih =>
    rw [List.dropWhile_cons]
    by_cases hc : (c == '/') = true
    · rw [if_pos hc]
      exact ih
    · rw [if_neg hc]
      dsimp only
      exact Bool.eq_false_iff.mpr hc

theorem rstripSlash_append_slash (dst : List Char) :
    rstripSlash (dst ++ ['/']) = rstripSlash dst := by
  rw [rstripSlash, rstripSlash, List.reverse_append]
  simp [List.dropWhile_cons]

theorem parentDir_append_slash {m : Nat} (hm : 2 ≤ m) (dst : List Char) :
    parentDir m (dst ++ ['/']) = parentDir m dst := by
  rw [parentDir, parentDir]
  rw [if_pos (Or.inl (by omega)), if_pos (Or.inl (by omega))]
  rw [rstripSlash_append_slash]

/-- C4: `copy_to` treats the destination as a directory — the extraction
parent is the destination with its trailing slashes normalised to exactly
one — precisely when more than one file was archived, or the destination
already ends with a separator, or it is `.` or `..`; otherwise the
extraction parent is the destination's containing directory.  In
particular, copying two or more files to a destination behaves exactly
like copying them to the same destination with a trailing separator. -/
theorem copy_to_destination_rule (n : Nat) (dst : List Char) :
    (n > 1 ∨ endsWithSlash dst = true ∨ dst = ".".data ∨ dst = "..".data →
      parentDir n dst = rstripSlash dst ++ ['/'] ∧
      endsWithSlash (rstripSlash dst) = false) ∧
    (¬(n > 1 ∨ endsWithSlash dst = true ∨ dst = ".".data ∨ dst = "..".data) →
      parentDir n dst = dirname dst) ∧
    (∀ (o : CopyOracle) (st : CopyState) (src : List Char) (m : Nat),
      o.tarResult = some m → 2 ≤ m →
      copyTo o st src dst = copyTo o st src (dst ++ ['/'])) := by
  refine ⟨?_, ?_, ?_⟩
  · intro hcond
    exact ⟨by rw [parentDir, if_pos hcond], rstripSlash_not_ends dst⟩
  · intro hcond
    rw [parentDir, if_neg hcond]
  · intro o st src m hm h2
    rw [copyTo, copyTo, hm]
    dsimp only
    rw [parentDir_append_slash h2]

theorem copy_to_destination_rule_witness :
    parentDir 2 "/opt/app".data = rstripSlash "/opt/app".data ++ ['/'] ∧
    parentDir 1 "/opt/app/file.bin".data = dirname "/opt/app/file.bin".data ∧
    copyTo
        { tarResult := some 2, archivePath := "/tmp/t.tar".data, scpOk := true,
          mkdirExit := 0, extractExit := 0 }
        { localFiles := [] } "/host/file".data "/opt/app".data =
      copyTo
        { tarResult := some 2, archivePath := "/tmp/t.tar".data, scpOk := true,
          mkdirExit := 0, extractExit := 0 }
        { localFiles := [] } "/host/file".data ("/opt/app".data ++ ['/']) :=
  ⟨((copy_to_destination_rule 2 "/opt/app".data).1 (by decide)).1,
   (copy_to_destination_rule 1 "/opt/app/file.bin".data).2.1 (by decide),
   (copy_to_destination_rule 2 "/opt/app".data).2.2 _ _ _ 2 rfl (by decide)⟩

/-! ## `restart` (lines 203-208) -/

/-- The grace period slept at line 207. -/
def graceSeconds : Nat := 120

/-- How `restart` can fail. -/
inductive RestartError where
  | transportLost
  | commandFailure (cmd : List Char) (exit : Int)
  | systemDidNotRestart

/-- The observable steps of a `restart` call. -/
inductive RestartEvent where
  | execShutdown
  | sleepGrace (seconds : Nat)
deriving DecidableEq

/-- The collaborators of one `restart` call: the outcome of the
`shutdown -r now` command (`none` when the transport fails mid-command),
and whether the session would still respond after the grace period. -/
structure RestartOracle where
  shutdownOutcome : Option Int
  sessionRespondsAfterGrace : Bool

/-- `restart` (lines 203-208): assert `shutdown -r now`, sleep the fixed
grace period, then raise `System did not restart`. -/
def restart (o : RestartOracle) : Except RestartError Unit × List RestartEvent :=
  match o.shutdownOutcome with
  | none => (.error .transportLost, [.execShutdown])
  | some code =>
    match assertCommand code "shutdown -r now".data with
    | .error (c, e) => (.error (.commandFailure c e), [.execShutdown])
    | .ok _ => (.error .systemDidNotRestart, [.execShutdown, .sleepGrace graceSeconds])

/-- C6 counterexample: with the shutdown command confirmed (exit code 0)
and a session that does not respond after the grace period — the very
situation the claim calls a successful restart — `restart` still raises
the fatal `System did not restart` error instead of succeeding. -/
theorem restart_counterexample :
    (restart { shutdownOutcome := some 0, sessionRespondsAfterGrace := false }).1 =
      Except.error RestartError.systemDidNotRestart ∧
    ({ shutdownOutcome := some 0, sessionRespondsAfterGrace := false } :
      RestartOracle).sessionRespondsAfterGrace = false := by
  constructor
  · rfl
  · rfl

/-- C6 amended: `restart` issues `shutdown -r now` through the assertive
command path, so a transport loss or a non-zero exit propagates as the
operation's failure; when the command is confirmed, `restart` sleeps the
fixed 120-second grace period and then unconditionally raises the fatal
`System did not restart` error — it never returns normally, whether or
not the session still responds after the grace period. -/
theorem restart_always_fatal (o : RestartOracle) :
    (restart o).1 ≠ Except.ok () ∧
    (o.shutdownOutcome = some 0 →
      (restart o).1 = Except.error RestartError.systemDidNotRestart ∧
      (restart o).2 = [RestartEvent.execShutdown, RestartEvent.sleepGrace graceSeconds]) := by
  constructor
  · rcases ho : o.shutdownOutcome with _ | code
    · simp [restart, ho]
    · by_cases hc : code = 0
      · subst hc
        simp [restart, ho, assertCommand]
      · simp [restart, ho, assertCommand, hc]
  · intro h0
    simp [restart, h0, assertCommand]

theorem restart_always_fatal_witness :
    (restart { shutdownOutcome := some 0, sessionRespondsAfterGrace := true }).1 =
      Except.error RestartError.systemDidNotRestart :=
  ((restart_always_fatal
    { shutdownOutcome := some 0, sessionRespondsAfterGrace := true }).2 rfl).1

/-! ## `_connect` (lines 120-126) -/

/-- The error taxonomy of session establishment. -/
inductive ConnectError where
  | configurationError (msg : List Char)
  | connectionError

/-- Outcome of a single `SSHClient.connect` attempt by the external
transport collaborator. -/
inductive AttemptOutcome where
  | success
  | authFailure

/-- `_connect` (lines 120-126): read `hostname` from the configuration
mapping; `assert hostname` fails — before any connection attempt — when
it is absent (or empty, by Python truthiness); otherwise call
`SSHClient.connect` exactly once, an authentication or transport
negotiation failure surfacing as a connection error.  The second
component counts the connection attempts made. -/
def connectDevice (cfg : SSHConfig) (attempt : AttemptOutcome) :
    Except ConnectError Unit × Nat :=
  match cfg.hostname with
  | none =>
    (.error (.configurationError "Missing hostname from adapter configuration".data), 0)
  | some h =>
    if h = [] then
      (.error (.configurationError "Missing hostname from adapter configuration".data), 0)
    else
      match attempt with
      | .success => (.ok (), 1)
      | .authFailure => (.error .connectionError, 1)

/-- C7: session establishment fails with the configuration error, with
zero connection attempts made, when the hostname is absent from the
configuration mapping; with a (non-empty) hostname present, exactly one
connection attempt is made — no retry — and an authentication or
transport-negotiation failure surfaces as a connection error. -/
theorem connect_error_taxonomy (cfg : SSHConfig) (attempt : AttemptOutcome) :
    (cfg.hostname = none →
      connectDevice cfg attempt =
        (.error (.configurationError "Missing hostname from adapter configuration".data), 0)) ∧
    (∀ h, cfg.hostname = some h → h ≠ [] →
      (connectDevice cfg attempt).2 = 1 ∧
      (attempt = .authFailure →
        (connectDevice cfg attempt).1 = .error .connectionError)) := by
  constructor
  · intro hn
    simp [connectDevice, hn]
  · intro h hh hne
    simp only [connectDevice, hh]
    rw [if_neg hne]
    cases attempt
    · exact ⟨rfl, fun hc => by cases hc⟩
    · exact ⟨rfl, fun _ => rfl⟩

theorem connect_error_taxonomy_witness :
    connectDevice { hostname := none, username := none, password := none } .success =
      (.error (.configurationError "Missing hostname from adapter configuration".data), 0) ∧
    (connectDevice
      { hostname := some "10.0.0.5".data, username := none, password := none }
      .authFailure).1 = .error .connectionError :=
  ⟨(connect_error_taxonomy { hostname := none, username := none, password := none }
      .success).1 rfl,
   ((connect_error_taxonomy
      { hostname := some "10.0.0.5".data, username := none, password := none }
      .authFailure).2 "10.0.0.5".data rfl (by decide)).2 rfl⟩

/-! ## Unsupported operations (lines 112-118 and 214-224) -/

/-- The unsupported-operation signal (`NotImplementedError` in the code,
`UnsupportedOperationError` in the specification's taxonomy). -/
inductive UnsupportedError where
  | notImplemented (msg : List Char)

/-- `get_device_stats` (lines 112-118): unconditionally raises. -/
def get_device_stats : Except UnsupportedError Unit :=
  .error (.notImplemented "Device statistics is not supported when using SSH".data)

/-- `disconnect_network` (lines 214-218): unconditionally raises. -/
def disconnect_network : Except UnsupportedError Unit :=
  .error (.notImplemented "Disconnecting the network is not possible when using SSH".data)

/-- `connect_network` (lines 220-224): unconditionally raises (with the
same message as `disconnect_network`). -/
def connect_network : Except UnsupportedError Unit :=
  .error (.notImplemented "Disconnecting the network is not possible when using SSH".data)

/-- C8: `get_device_stats`, `disconnect_network` and `connect_network`
each signal the unsupported-operation error on every invocation — the
result is the error value carrying the raise's message, never a returned
value and never a silent no-op. -/
theorem unsupported_operations_signal :
    get_device_stats =
      Except.error
        (.notImplemented "Device statistics is not supported when using SSH".data) ∧
    disconnect_network =
      Except.error
        (.notImplemented "Disconnecting the network is not possible when using SSH".data) ∧
    connect_network =
      Except.error
        (.notImplemented "Disconnecting the network is not possible when using SSH".data) :=
  ⟨rfl, rfl, rfl⟩

/-! ## `start_time` and `get_uptime` (lines 91-110) -/

/-- Python `int()` applied to an exact reading: truncation toward
zero. -/
def pyInt (q : ℚ) : ℤ := if 0 ≤ q then ⌊q⌋ else ⌈q⌉

/-- `start_time` (lines 91-100): read the first field of `/proc/uptime`,
convert it with `int(float(...))`, and subtract that many whole seconds
from the current UTC time.  Instants are rational seconds and the
`/proc/uptime` value an exact rational. -/
def start_time (now uptimeReading : ℚ) : ℚ := now - (pyInt uptimeReading : ℚ)

/-- `get_uptime` (lines 102-110): current UTC time (`now2`, the second
clock reading) minus `start_time` (computed at the first clock reading
`now1`), in seconds. -/
def get_uptime (now2 now1 uptimeReading : ℚ) : ℚ := now2 - start_time now1 uptimeReading

/-- C10: `start_time` truncates the fractional part of the uptime value
(toward zero, hence the floor for the non-negative readings delivered by
`/proc/uptime`), so the computed uptime is based on whole elapsed
seconds: it never exceeds the true uptime and under-reports it by
strictly less than one second. -/
theorem start_time_truncates (now1 now2 u : ℚ) (hu : 0 ≤ u) :
    start_time now1 u = now1 - (⌊u⌋ : ℤ) ∧
    get_uptime now2 now1 u ≤ (now2 - now1) + u ∧
    (now2 - now1) + u - 1 < get_uptime now2 now1 u := by
  have hp : pyInt u = ⌊u⌋ := if_pos hu
  refine ⟨by rw [start_time, hp], ?_, ?_⟩
  · rw [get_uptime, start_time, hp]
    have hfl := Int.floor_le u
    linarith
  · rw [get_uptime, start_time, hp]
    have hlt := Int.sub_one_lt_floor u
    linarith

theorem start_time_truncates_witness :
    start_time 0 (7 / 2 : ℚ) = 0 - ((⌊(7 / 2 : ℚ)⌋ : ℤ) : ℚ) ∧
    get_uptime 5 0 (7 / 2 : ℚ) ≤ (5 - 0) + 7 / 2 ∧
    (5 - 0) + 7 / 2 - 1 < get_uptime 5 0 (7 / 2 : ℚ) :=
  start_time_truncates 0 5 (7 / 2 : ℚ) (by norm_num)

end SSHDevice
